import Mathlib

/-!
Shallow embedding of `src/static/js/app.js` (the fuel-station search front
end) together with theorems settling the frozen claims about it.

Modelling conventions:
* JavaScript numbers are modelled by `JSNum`: an exact rational, positive or
  negative infinity, or NaN.  Every numeric value produced by the embedded
  code is a terminating decimal, so exact rational arithmetic coincides with
  IEEE double arithmetic on all comparisons performed by the code.
* `new Date(y, m, d, h, mi).getTime()` is modelled in a fixed UTC-like frame
  (timezone offset 0, no DST).  All claims about dates are relative
  ("now minus the parsed instant"), so a constant offset is immaterial.
* `Array.prototype.sort(comparefn)` is modelled as a stable insertion sort
  that places `a` before `b` exactly when `comparefn a b` is not positive
  (ECMAScript maps a NaN comparator result to +0), which is the unique
  output of any stable sort for a consistent comparator.
-/

/-- A JavaScript number: exact rational, ±Infinity, or NaN. -/
inductive JSNum where
  | fin (q : ℚ)
  | inf
  | neginf
  | nan
deriving DecidableEq, Repr

namespace JSNum

/-- IEEE negation. -/
def neg : JSNum → JSNum
  | fin q => fin (-q)
  | inf => neginf
  | neginf => inf
  | nan => nan

/-- IEEE addition (exact on rationals; `∞ + (-∞) = NaN`). -/
def add : JSNum → JSNum → JSNum
  | nan, _ => nan
  | _, nan => nan
  | fin a, fin b => fin (a + b)
  | fin _, inf => inf
  | fin _, neginf => neginf
  | inf, fin _ => inf
  | inf, inf => inf
  | inf, neginf => nan
  | neginf, fin _ => neginf
  | neginf, inf => nan
  | neginf, neginf => neginf

/-- IEEE subtraction, `x - y = x + (-y)`. -/
def sub (x y : JSNum) : JSNum := add x (neg y)

/-- Division by a natural number (the price-list length; JS `x / n`). -/
def divNat (x : JSNum) (n : Nat) : JSNum :=
  match x, n with
  | fin q, 0 => if 0 < q then inf else if q < 0 then neginf else nan
  | fin q, n + 1 => fin (q / (n + 1 : ℚ))
  | inf, _ => inf
  | neginf, _ => neginf
  | nan, _ => nan

/-- Division by a positive rational constant (JS `x / 100000`). -/
def divPos (x : JSNum) (c : ℚ) : JSNum :=
  match x with
  | fin q => fin (q / c)
  | inf => inf
  | neginf => neginf
  | nan => nan

/-- Is the number strictly positive?  (`NaN` is not.) -/
def isPos : JSNum → Bool
  | fin q => decide (0 < q)
  | inf => true
  | neginf => false
  | nan => false

/-- JS `isNaN`. -/
def isNaN : JSNum → Bool
  | nan => true
  | _ => false

/-- Is the number an ordinary finite value? -/
def isFin : JSNum → Bool
  | fin _ => true
  | _ => false

end JSNum

/-- A dynamically typed JavaScript field value, as it can appear in the
station JSON: a number, a string, or absent (`undefined`). -/
inductive JSValue where
  | num (q : ℚ)
  | str (s : String)
  | undef
deriving DecidableEq, Repr

/-- JavaScript truthiness of a `JSValue` (0, the empty string and
`undefined` are falsy). -/
def truthy : JSValue → Bool
  | .num q => decide (q ≠ 0)
  | .str s => decide (s ≠ "")
  | .undef => false

/-- The JS whitespace characters recognised by `parseFloat` and `trim`. -/
def jsIsWhitespace (c : Char) : Bool :=
  c = ' ' || c = '\t' || c = '\n' || c = '\r' ||
  c = Char.ofNat 11 || c = Char.ofNat 12 || c = Char.ofNat 160 ||
  c = Char.ofNat 0xFEFF || c = Char.ofNat 0x2028 || c = Char.ofNat 0x2029

/-- Numeric value of a decimal digit character. -/
def digitVal (c : Char) : Nat := c.toNat - 48

/-- Value of a list of decimal digit characters. -/
def digitsVal (ds : List Char) : Nat := ds.foldl (fun a c => a * 10 + digitVal c) 0

/-- Value of the fractional digits after a decimal point. -/
def fracVal (ds : List Char) : ℚ := (digitsVal ds : ℚ) / (10 : ℚ) ^ ds.length

/-- Value of an optional exponent part (`e`/`E`, optional sign, digits);
an absent or malformed exponent contributes a factor of `10 ^ 0`, matching
`parseFloat`'s longest-valid-prefix rule. -/
def parseExpPart (cs : List Char) : Int :=
  match cs with
  | c :: rest =>
    if c = 'e' ∨ c = 'E' then
      match rest with
      | '+' :: r => (let ds := (r.takeWhile (·.isDigit)); if ds.isEmpty then 0 else (digitsVal ds : Int))
      | '-' :: r => (let ds := (r.takeWhile (·.isDigit)); if ds.isEmpty then 0 else -(digitsVal ds : Int))
      | r => (let ds := (r.takeWhile (·.isDigit)); if ds.isEmpty then 0 else (digitsVal ds : Int))
    else 0
  | [] => 0

/-- `parseFloat` after whitespace and sign: `Infinity`, or a decimal
literal `digits[.digits][exp]` / `.digits[exp]`; otherwise NaN. -/
def parseFloatBody (cs : List Char) : JSNum :=
  if cs.take 8 = ['I', 'n', 'f', 'i', 'n', 'i', 't', 'y'] then .inf
  else
    let ip := cs.takeWhile (·.isDigit)
    let r1 := cs.dropWhile (·.isDigit)
    if ip.isEmpty then
      match r1 with
      | '.' :: r2 =>
        let fp := r2.takeWhile (·.isDigit)
        let r3 := r2.dropWhile (·.isDigit)
        if fp.isEmpty then .nan
        else .fin (fracVal fp * (10 : ℚ) ^ parseExpPart r3)
      | _ => .nan
    else
      match r1 with
      | '.' :: r2 =>
        let fp := r2.takeWhile (·.isDigit)
        let r3 := r2.dropWhile (·.isDigit)
        .fin (((digitsVal ip : ℚ) + fracVal fp) * (10 : ℚ) ^ parseExpPart r3)
      | _ => .fin ((digitsVal ip : ℚ) * (10 : ℚ) ^ parseExpPart r1)

/-- JS `parseFloat` on a list of characters. -/
def parseFloatChars (cs0 : List Char) : JSNum :=
  let cs := cs0.dropWhile jsIsWhitespace
  match cs with
  | '+' :: r => parseFloatBody r
  | '-' :: r => (parseFloatBody r).neg
  | r => parseFloatBody r

/-- JS `parseFloat(v)`: the argument is first converted to a string; for a
number that round-trips to the same value, for `undefined` it yields NaN. -/
def parseFloatOfValue : JSValue → JSNum
  | .num q => .fin q
  | .str s => parseFloatChars s.data
  | .undef => .nan

/-- One fuel-price observation of a station (`station.prix[i]`). -/
structure PriceEntry where
  nom : String
  valeur : JSValue
  maj : String
deriving DecidableEq, Repr

/-- A station record as received from the search endpoint.  Fields that are
only echoed verbatim by the rendering layer (`id`, `services`) are omitted;
every field read by the embedded logic is present.  `Option.none` models an
absent (`undefined`) field. -/
structure Station where
  marque : Option String
  adresse : Option String
  cp : Option String
  ville : Option String
  type : Option String
  automate_24h : Bool
  horaires : Option String
  latitude : JSValue
  longitude : JSValue
  prix : List PriceEntry
deriving DecidableEq, Repr

/-- The summand `parseFloat(prix.valeur || 0)` of `getPrixMoyen`. -/
def coerceVal (v : JSValue) : JSNum :=
  parseFloatOfValue (if truthy v then v else .num 0)

/-- `getPrixMoyen`: arithmetic mean of `parseFloat(prix.valeur || 0)` over
the price list; `Infinity` when the list is empty. -/
def getPrixMoyen (station : Station) : JSNum :=
  if station.prix.isEmpty then .inf
  else
    (station.prix.foldl (fun (sum : JSNum) prix => sum.add (coerceVal prix.valeur))
      (.fin 0)).divNat station.prix.length

/-- Consume two decimal digits. -/
def matchTwoDigits : List Char → Option (Nat × List Char)
  | a :: b :: r => if a.isDigit && b.isDigit then some (digitVal a * 10 + digitVal b, r) else none
  | _ => none

/-- Consume one expected literal character. -/
def expectChar (c : Char) : List Char → Option (List Char)
  | x :: r => if x = c then some r else none
  | [] => none

/-- Try the regex `(\d{2})\/(\d{2})\/(\d{4}) à (\d{2}):(\d{2})` anchored at
the head of the character list, returning `(day, month, year, hour, minute)`. -/
def matchTimestampAt (cs : List Char) : Option (Nat × Nat × Nat × Nat × Nat) := do
  let (d, r1) ← matchTwoDigits cs
  let r2 ← expectChar '/' r1
  let (m, r3) ← matchTwoDigits r2
  let r4 ← expectChar '/' r3
  let (y1, r5) ← matchTwoDigits r4
  let (y2, r6) ← matchTwoDigits r5
  let r7 ← expectChar ' ' r6
  let r8 ← expectChar 'à' r7
  let r9 ← expectChar ' ' r8
  let (h, r10) ← matchTwoDigits r9
  let r11 ← expectChar ':' r10
  let (mi, _) ← matchTwoDigits r11
  pure (d, m, y1 * 100 + y2, h, mi)

/-- `String.prototype.match` with the timestamp regex: an unanchored search,
first match wins. -/
def matchTimestampList : List Char → Option (Nat × Nat × Nat × Nat × Nat)
  | [] => none
  | c :: rest =>
    match matchTimestampAt (c :: rest) with
    | some t => some t
    | none => matchTimestampList rest

/-- Search `s` for the timestamp pattern `DD/MM/YYYY à HH:MM`. -/
def matchTimestamp (s : String) : Option (Nat × Nat × Nat × Nat × Nat) :=
  matchTimestampList s.data

/-- Days since the epoch of the civil date `y-m-d` (`m ∈ 1..12`; `d` may be
out of range, which rolls over exactly as `new Date` does). -/
def daysFromCivil (y m d : Int) : Int :=
  let yy := if m ≤ 2 then y - 1 else y
  let era := Int.fdiv yy 400
  let yoe := yy - era * 400
  let mp := Int.fmod (m + 9) 12
  let doy := Int.fdiv (153 * mp + 2) 5 + d - 1
  let doe := yoe * 365 + Int.fdiv yoe 4 - Int.fdiv yoe 100 + doy
  era * 146097 + doe - 719468

/-- `new Date(year, monthIndex, day, hour, minute).getTime()` in
milliseconds (fixed zero timezone offset): years `0..99` map to `1900+year`,
and out-of-range month/day/time components roll over. -/
def jsDateMs (year monthIndex day hour minute : Int) : Int :=
  let y0 := if 0 ≤ year ∧ year ≤ 99 then year + 1900 else year
  let y := y0 + Int.fdiv monthIndex 12
  let m := Int.fmod monthIndex 12
  (daysFromCivil y (m + 1) 1 + (day - 1)) * 86400000 + hour * 3600000 + minute * 60000

/-- `parseDisplayDate`: 0 for the empty string, the sentinel
`"Non renseigné"`, or a string the timestamp regex does not match;
otherwise the epoch milliseconds of the parsed local instant. -/
def parseDisplayDate (dateStr : String) : Int :=
  if dateStr = "" ∨ dateStr = "Non renseigné" then 0
  else
    match matchTimestamp dateStr with
    | none => 0
    | some (d, m, y, h, mi) => jsDateMs (y : Int) ((m : Int) - 1) (d : Int) (h : Int) (mi : Int)

/-- `getLatestUpdateTimestamp`: maximum parsed `maj` timestamp over the
price list, starting from 0. -/
def getLatestUpdateTimestamp (station : Station) : Int :=
  if station.prix.isEmpty then 0
  else
    station.prix.foldl
      (fun latest prix =>
        let timestamp := parseDisplayDate prix.maj
        if latest < timestamp then timestamp else latest)
      0

/-- The freshness bucket of a price's last update. -/
inductive Freshness where
  | fresh
  | old
  | stale
deriving DecidableEq, Repr

/-- `getDataAge`: `stale` for the sentinel, the empty string or a
non-matching string; otherwise classify `(now - updateDate) / 86400000`
days as `fresh` (≤ 7), `old` (≤ 30) or `stale`.  `now` (JS `new Date()`)
is passed explicitly, in the same zero-offset frame as `jsDateMs`. -/
def getDataAge (dateString : String) (now : Int) : Freshness :=
  if dateString = "" ∨ dateString = "Non renseigné" then .stale
  else
    match matchTimestamp dateString with
    | none => .stale
    | some (d, m, y, h, mi) =>
      let updateDate := jsDateMs (y : Int) ((m : Int) - 1) (d : Int) (h : Int) (mi : Int)
      let diffDays : ℚ := ((now : ℚ) - (updateDate : ℚ)) / 86400000
      if diffDays ≤ 7 then .fresh
      else if diffDays ≤ 30 then .old
      else .stale

/-- Length of `dropWhile` never exceeds the original length. -/
theorem length_dropWhile_le' {α : Type} (p : α → Bool) (l : List α) :
    (l.dropWhile p).length ≤ l.length := by
  induction l with
  | nil => simp
  | cons c t ih =>
    rw [List.dropWhile_cons]
    split
    · exact Nat.le_succ_of_le ih
    · simp

/-- The ECMAScript comparator order: `a` may stay before `b` exactly when
`comparefn a b` is not positive (a NaN comparator value counts as +0). -/
def jsCmpLe {α : Type} (cmp : α → α → JSNum) (a b : α) : Prop :=
  (cmp a b).isPos = false

instance {α : Type} (cmp : α → α → JSNum) : DecidableRel (jsCmpLe cmp) :=
  fun a b => instDecidableEqBool ((cmp a b).isPos) false

/-- `Array.prototype.sort(comparefn)`: the stable sort determined by the
comparator (modelled as a stable insertion sort). -/
def jsSortBy {α : Type} (cmp : α → α → JSNum) (l : List α) : List α :=
  l.insertionSort (jsCmpLe cmp)

/-- Code-point string comparison standing in for the locale-sensitive
builtin `String.prototype.localeCompare` (negative / zero / positive). -/
def localeCompareQ (a b : String) : ℚ :=
  match compare a b with
  | .lt => -1
  | .eq => 0
  | .gt => 1

/-- The `date-maj` comparator: `dateB - dateA` (most recent first). -/
def cmpDateMaj (a b : Station) : JSNum :=
  .fin ((getLatestUpdateTimestamp b : ℚ) - (getLatestUpdateTimestamp a : ℚ))

/-- The `prix-croissant` comparator: `getPrixMoyen(a) - getPrixMoyen(b)`. -/
def cmpPrixCroissant (a b : Station) : JSNum :=
  (getPrixMoyen a).sub (getPrixMoyen b)

/-- The `prix-decroissant` comparator: `getPrixMoyen(b) - getPrixMoyen(a)`. -/
def cmpPrixDecroissant (a b : Station) : JSNum :=
  (getPrixMoyen b).sub (getPrixMoyen a)

/-- The `ville-az` comparator: `(a.ville || '').localeCompare(b.ville || '')`. -/
def cmpVille (a b : Station) : JSNum :=
  .fin (localeCompareQ (a.ville.getD "") (b.ville.getD ""))

/-- The `marque-az` comparator. -/
def cmpMarque (a b : Station) : JSNum :=
  .fin (localeCompareQ (a.marque.getD "") (b.marque.getD ""))

/-- `trierStations`: the `switch` on the sort key.  The cases `"date-maj"`
and `""` share a body; a key matching no case leaves the array untouched
(the `switch` has no `default`). -/
def trierStations (stations : List Station) (tri : String) : List Station :=
  if tri = "date-maj" ∨ tri = "" then jsSortBy cmpDateMaj stations
  else if tri = "prix-croissant" then jsSortBy cmpPrixCroissant stations
  else if tri = "prix-decroissant" then jsSortBy cmpPrixDecroissant stations
  else if tri = "ville-az" then jsSortBy cmpVille stations
  else if tri = "marque-az" then jsSortBy cmpMarque stations
  else stations

/-- The active filter selections read from the controls. -/
structure FilterSpec where
  typeStation : String
  horaires : String
  fuels : List String
deriving DecidableEq, Repr

/-- Station-type filter step of `appliquerFiltres` (select value `''`,
`'autoroute'`, `'route'`; any other value filters nothing). -/
def filtreType (typeStation : String) (stations : List Station) : List Station :=
  if typeStation ≠ "" then
    if typeStation = "autoroute" then stations.filter (fun s => s.type = some "Autoroute")
    else if typeStation = "route" then stations.filter (fun s => s.type = some "Route")
    else stations
  else stations

/-- Opening-hours filter step of `appliquerFiltres`. -/
def filtreHoraires (horaires : String) (stations : List Station) : List Station :=
  if horaires = "24h" then stations.filter (fun s => s.automate_24h)
  else if horaires = "ouvert" then
    stations.filter (fun s => s.horaires ≠ some "Horaires non disponibles" ∨ s.automate_24h)
  else stations

/-- Fuel-membership filter step of `appliquerFiltres` (OR over the selected
fuels; skipped when no checkbox is ticked). -/
def filtreFuels (selectedFuels : List String) (stations : List Station) : List Station :=
  if 0 < selectedFuels.length then
    stations.filter (fun station =>
      selectedFuels.any (fun fuel => station.prix.any (fun prix => prix.nom = fuel)))
  else stations

/-- The pure core of `appliquerFiltres`: the three filter steps in source
order followed by the sort (`triSelect` value `''` defaults to
`'date-maj'` via `|| 'date-maj'`). -/
def appliquerFiltresPure (stations : List Station) (fs : FilterSpec) (tri : String) :
    List Station :=
  trierStations
    (filtreFuels fs.fuels (filtreHoraires fs.horaires (filtreType fs.typeStation stations)))
    (if tri = "" then "date-maj" else tri)

/-- JS `String.prototype.trim` on a character list. -/
def jsTrimChars (cs : List Char) : List Char :=
  ((cs.dropWhile jsIsWhitespace).reverse.dropWhile jsIsWhitespace).reverse

/-- JS `String.prototype.trim`. -/
def jsTrimStr (s : String) : String := String.mk (jsTrimChars s.data)

/-- After an initial `','`: skip `\s*` and consume a second `','`,
returning the remainder (the regex `,\s*,` with maximal munch, which is
equivalent to backtracking here since a shorter whitespace run cannot end
at a comma). -/
def commaAfterWs (l : List Char) : Option (List Char) :=
  match l.dropWhile jsIsWhitespace with
  | c :: r => if c = ',' then some r else none
  | [] => none

theorem commaAfterWs_length {l r : List Char} (h : commaAfterWs l = some r) :
    r.length < l.length := by
  unfold commaAfterWs at h
  have hle := length_dropWhile_le' jsIsWhitespace l
  split at h
  next c t heq =>
    split at h
    · cases h
      rw [heq] at hle
      simp at hle
      omega
    · exact absurd h (by simp)
  next => exact absurd h (by simp)

/-- `replace(/,\s*,/g, ',')`: global non-overlapping left-to-right
replacement; scanning resumes after each replacement. -/
def collapseCommaWs : List Char → List Char
  | [] => []
  | c :: rest =>
    if c = ',' then
      match h : commaAfterWs rest with
      | some r => ',' :: collapseCommaWs r
      | none => ',' :: collapseCommaWs rest
    else c :: collapseCommaWs rest
termination_by cs => cs.length
decreasing_by
  · have := commaAfterWs_length h
    simp
    omega
  · simp
  · simp

/-- The unreserved characters `encodeURIComponent` leaves unescaped. -/
def isUnreservedUri (c : Char) : Bool :=
  ('A' ≤ c && c ≤ 'Z') || ('a' ≤ c && c ≤ 'z') || ('0' ≤ c && c ≤ '9') ||
  c = '-' || c = '_' || c = '.' || c = '!' || c = '~' || c = '*' ||
  c = Char.ofNat 39 || c = '(' || c = ')'

/-- Uppercase hexadecimal digit. -/
def hexDigitChar : Nat → Char
  | 0 => '0'
  | 1 => '1'
  | 2 => '2'
  | 3 => '3'
  | 4 => '4'
  | 5 => '5'
  | 6 => '6'
  | 7 => '7'
  | 8 => '8'
  | 9 => '9'
  | 10 => 'A'
  | 11 => 'B'
  | 12 => 'C'
  | 13 => 'D'
  | 14 => 'E'
  | _ => 'F'

/-- UTF-8 encoding of a character, as byte values. -/
def utf8Bytes (c : Char) : List Nat :=
  let n := c.toNat
  if n < 128 then [n]
  else if n < 2048 then [192 + n / 64, 128 + n % 64]
  else if n < 65536 then [224 + n / 4096, 128 + (n / 64) % 64, 128 + n % 64]
  else [240 + n / 262144, 128 + (n / 4096) % 64, 128 + (n / 64) % 64, 128 + n % 64]

/-- `encodeURIComponent` on one character. -/
def encChar (c : Char) : List Char :=
  if isUnreservedUri c then [c]
  else (utf8Bytes c).foldr (fun b acc => '%' :: hexDigitChar (b / 16) :: hexDigitChar (b % 16) :: acc) []

/-- JS `encodeURIComponent`. -/
def encodeURIComponent (s : String) : String :=
  String.mk (s.data.foldr (fun c acc => encChar c ++ acc) [])

/-- Decimal digits of the fractional part `num/den` (fuel-bounded; every
value reaching this printer in the embedded code is a terminating
decimal, for which the expansion stops at the exact representation,
matching the JS shortest-round-trip printing). -/
def fracDigits : Nat → Nat → Nat → List Char
  | 0, _, _ => []
  | _ + 1, 0, _ => []
  | fuel + 1, num, den =>
    let num10 := num * 10
    hexDigitChar (num10 / den) :: fracDigits fuel (num10 % den) den

/-- Decimal rendering of a nonnegative rational. -/
def ratToDecimalChars (q : ℚ) : List Char :=
  let ip := q.num.toNat / q.den
  let rest := q.num.toNat % q.den
  (Nat.toDigits 10 ip) ++ (if rest = 0 then [] else '.' :: fracDigits 40 rest q.den)

/-- JS number-to-string conversion, for the values interpolated into the
coordinate URL. -/
def numToDisplay : JSNum → String
  | .fin q => if q < 0 then String.mk ('-' :: ratToDecimalChars (-q)) else String.mk (ratToDecimalChars q)
  | .inf => "Infinity"
  | .neginf => "-Infinity"
  | .nan => "NaN"

/-- `station.f || dflt` for an optional string field. -/
def jsStrOr (v : Option String) (dflt : String) : String :=
  match v with
  | some s => if s = "" then dflt else s
  | none => dflt

/-- The fixed Google-Maps search URL stem. -/
def mapsSearchBase : String := "https://www.google.com/maps/search/"

/-- The query-parameter marker of the coordinate form of the URL. -/
def coordUrlMarker : String := "?api=1&query="

/-- The text query built in the fallback branch of
`generateGoogleMapsUrl` (brand prefix plus collapsed, trimmed address). -/
def fallbackQuery (station : Station) : String :=
  let marque := jsStrOr station.marque "Station-service"
  let adresse := jsStrOr station.adresse ""
  let ville := jsStrOr station.ville ""
  let cp := jsStrOr station.cp ""
  let adresseComplete :=
    String.mk (jsTrimChars (collapseCommaWs (adresse ++ ", " ++ cp ++ " " ++ ville ++ ", France").data))
  if marque ≠ "" ∧ marque ≠ "Station-service" ∧ jsTrimStr marque ≠ "" then
    marque ++ " " ++ adresseComplete
  else
    "Station-service " ++ adresseComplete

/-- `generateGoogleMapsUrl`: a coordinate query when both coordinates are
truthy, parse to non-NaN numbers and are non-zero after division by 10^5;
otherwise the percent-encoded text query.  Total: nothing in the source
body can throw (the `try`/`catch` is dead). -/
def generateGoogleMapsUrl (station : Station) : String :=
  if truthy station.latitude && truthy station.longitude then
    if !((parseFloatOfValue station.latitude).divPos 100000).isNaN &&
       !((parseFloatOfValue station.longitude).divPos 100000).isNaN &&
       (parseFloatOfValue station.latitude).divPos 100000 ≠ .fin 0 &&
       (parseFloatOfValue station.longitude).divPos 100000 ≠ .fin 0 then
      mapsSearchBase ++ coordUrlMarker ++
        numToDisplay ((parseFloatOfValue station.latitude).divPos 100000) ++ "," ++
        numToDisplay ((parseFloatOfValue station.longitude).divPos 100000)
    else
      mapsSearchBase ++ encodeURIComponent (fallbackQuery station)
  else
    mapsSearchBase ++ encodeURIComponent (fallbackQuery station)

/-- Does a URL use the coordinate form?  (It starts with the stem plus the
`?api=1&query=` marker; text URLs cannot, since `?` is percent-escaped.) -/
def isCoordUrl (u : String) : Bool :=
  (mapsSearchBase.data ++ coordUrlMarker.data).isPrefixOf u.data

/-- Modelled from the spec's words, for comparison with the code: both
coordinates are present, both parse as valid (non-NaN) numbers, and both
are non-zero after dividing the stored integer by 10^5. -/
def specCoordCondition (station : Station) : Bool :=
  station.latitude ≠ .undef && station.longitude ≠ .undef &&
  !((parseFloatOfValue station.latitude).divPos 100000).isNaN &&
  !((parseFloatOfValue station.longitude).divPos 100000).isNaN &&
  (parseFloatOfValue station.latitude).divPos 100000 ≠ .fin 0 &&
  (parseFloatOfValue station.longitude).divPos 100000 ≠ .fin 0

/-- What the results area (`#resultats`) currently shows. -/
inductive Display where
  | start
  | loading
  | errorMsg (message : String)
  | noResults
  | results (stations : List Station)
deriving DecidableEq, Repr

/-- `afficherResultats`: the "no stations found" notice for an empty list,
otherwise the rendered station cards. -/
def afficherResultats (stations : List Station) : Display :=
  if stations.isEmpty then .noResults else .results stations

/-- The controller's mutable state (`CarburantApp` instance fields plus
the rendered results area). -/
structure AppState where
  stationsData : List Station
  filteredStations : List Station
  isLoading : Bool
  display : Display
deriving DecidableEq, Repr

/-- The state of a freshly constructed controller. -/
def initialState : AppState :=
  { stationsData := [], filteredStations := [], isLoading := false, display := .start }

/-- Externally observable side effects of a controller step. -/
inductive Effect where
  | fetchRequest (ville : String)
  | alertMsg (message : String)
deriving DecidableEq, Repr

/-- `appliquerFiltres` as a state transformer: an early no-op when no
canonical data is stored, otherwise recompute the filtered/sorted list
from the canonical collection and render it.  The current control values
are passed as `fs`/`tri`. -/
def appliquerFiltresState (fs : FilterSpec) (tri : String) (st : AppState) : AppState :=
  if st.stationsData.isEmpty then st
  else
    let stations := appliquerFiltresPure st.stationsData fs tri
    { st with filteredStations := stations, display := afficherResultats stations }

/-- The synchronous prefix of `rechercherStations`: validation alert for a
blank query, the `isLoading` guard, then show the spinner, set the guard
and issue the remote request. -/
def triggerSearch (villeInput : String) (st : AppState) : AppState × List Effect :=
  let ville := jsTrimStr villeInput
  if ville = "" then
    (st, [.alertMsg "Veuillez saisir le nom dune ville"])
  else if st.isLoading then
    (st, [])
  else
    ({ st with display := .loading, isLoading := true }, [.fetchRequest ville])

/-- The settlement of an in-flight search request. -/
inductive FetchResult where
  | success (stations : List Station)
  | failure (message : String)
deriving DecidableEq, Repr

/-- The continuation of `rechercherStations` once the request settles: on
success store the canonical collection, copy it into `filteredStations`
and run `appliquerFiltres`; on failure (network error or non-ok response,
thrown before any assignment) show the error; in both cases the `finally`
clears the guard. -/
def settleSearch (res : FetchResult) (fs : FilterSpec) (tri : String) (st : AppState) :
    AppState :=
  match res with
  | .success stations =>
    let st1 := { st with stationsData := stations, filteredStations := stations }
    let st2 := appliquerFiltresState fs tri st1
    { st2 with isLoading := false }
  | .failure message =>
    { st with display := .errorMsg message, isLoading := false }

/-- Inserting into a `Pairwise r` list preserves `Pairwise r`, assuming
totality and transitivity only among the elements involved. -/
theorem pairwise_orderedInsert {α : Type} (r : α → α → Prop) [DecidableRel r] (a : α)
    (l : List α) (hl : l.Pairwise r)
    (htot : ∀ b ∈ l, r a b ∨ r b a)
    (htr : ∀ b ∈ l, ∀ c ∈ l, r a b → r b c → r a c) :
    (l.orderedInsert r a).Pairwise r := by
  induction l with
  | nil => simp
  | cons b t ih =>
    rw [List.orderedInsert]
    by_cases hab : r a b
    · rw [if_pos hab]
      rcases List.pairwise_cons.mp hl with ⟨hbt, htp⟩
      refine List.pairwise_cons.mpr ⟨?_, hl⟩
      intro x hx
      rcases List.mem_cons.mp hx with hxb | hxt
      · exact hxb ▸ hab
      · exact htr b (List.mem_cons_self b t) x (List.mem_cons_of_mem b hxt) hab (hbt x hxt)
    · rw [if_neg hab]
      rcases List.pairwise_cons.mp hl with ⟨hbt, htp⟩
      refine List.pairwise_cons.mpr ⟨?_, ?_⟩
      · intro x hx
        rcases (List.mem_orderedInsert r).mp hx with hxa | hxt
        · subst hxa
          rcases htot b (List.mem_cons_self b t) with h | h
          · exact absurd h hab
          · exact h
        · exact hbt x hxt
      · exact ih htp
          (fun c hc => htot c (List.mem_cons_of_mem b hc))
          (fun c hc d hd => htr c (List.mem_cons_of_mem b hc) d (List.mem_cons_of_mem b hd))

/-- The stable sort yields a `Pairwise r` list, assuming totality and
transitivity only among the list's elements. -/
theorem pairwise_insertionSort {α : Type} (r : α → α → Prop) [DecidableRel r]
    (l : List α)
    (htot : ∀ a ∈ l, ∀ b ∈ l, r a b ∨ r b a)
    (htr : ∀ a ∈ l, ∀ b ∈ l, ∀ c ∈ l, r a b → r b c → r a c) :
    (l.insertionSort r).Pairwise r := by
  induction l with
  | nil => simp
  | cons a t ih =>
    rw [List.insertionSort]
    have hmem : ∀ x ∈ t.insertionSort r, x ∈ t :=
      fun x hx => (List.perm_insertionSort r t).mem_iff.mp hx
    refine pairwise_orderedInsert r a (t.insertionSort r)
      (ih (fun x hx y hy => htot x (List.mem_cons_of_mem a hx) y (List.mem_cons_of_mem a hy))
          (fun x hx y hy z hz =>
            htr x (List.mem_cons_of_mem a hx) y (List.mem_cons_of_mem a hy)
              z (List.mem_cons_of_mem a hz)))
      ?_ ?_
    · intro b hb
      exact htot a (List.mem_cons_self a t) b (List.mem_cons_of_mem a (hmem b hb))
    · intro b hb c hc
      exact htr a (List.mem_cons_self a t) b (List.mem_cons_of_mem a (hmem b hb))
        c (List.mem_cons_of_mem a (hmem c hc))

/-- The subtraction-comparator order is total on all of `JSNum` (a NaN
difference is non-positive on both sides). -/
theorem jsSub_isPos_total (x y : JSNum) :
    (x.sub y).isPos = false ∨ (y.sub x).isPos = false := by
  cases x <;> cases y <;>
    simp [JSNum.sub, JSNum.add, JSNum.neg, JSNum.isPos]
  rename_i a b
  rcases le_or_lt a b with h | h
  · left
    linarith
  · right
    linarith

/-- The subtraction-comparator order is transitive through any non-NaN
middle value. -/
theorem jsSub_isPos_trans {x y z : JSNum} (hy : y ≠ .nan)
    (h1 : (x.sub y).isPos = false) (h2 : (y.sub z).isPos = false) :
    (x.sub z).isPos = false := by
  cases x <;> cases y <;> cases z <;>
    first
    | exact absurd rfl hy
    | (simp [JSNum.sub, JSNum.add, JSNum.neg, JSNum.isPos] at h1 h2 ⊢
       try linarith)

theorem hexDigitChar_ne_qmark (n : Nat) : hexDigitChar n ≠ '?' := by
  unfold hexDigitChar
  split <;> decide

theorem mem_percentEncoding {bs : List Nat} {x : Char}
    (hx : x ∈ bs.foldr
      (fun b acc => '%' :: hexDigitChar (b / 16) :: hexDigitChar (b % 16) :: acc) []) :
    x = '%' ∨ ∃ n, x = hexDigitChar n := by
  induction bs with
  | nil => simp at hx
  | cons b t ih =>
    simp only [List.foldr_cons, List.mem_cons] at hx
    rcases hx with rfl | rfl | rfl | hx
    · exact Or.inl rfl
    · exact Or.inr ⟨b / 16, rfl⟩
    · exact Or.inr ⟨b % 16, rfl⟩
    · exact ih hx

theorem encChar_no_qmark (c : Char) : '?' ∉ encChar c := by
  intro hx
  unfold encChar at hx
  by_cases hu : isUnreservedUri c
  · rw [if_pos hu] at hx
    simp only [List.mem_singleton] at hx
    subst hx
    exact absurd hu (by decide)
  · rw [if_neg hu] at hx
    rcases mem_percentEncoding hx with h | ⟨n, h⟩
    · exact absurd h (by decide)
    · exact hexDigitChar_ne_qmark n h.symm

theorem encodeURIComponent_no_qmark (s : String) : '?' ∉ (encodeURIComponent s).data := by
  show '?' ∉ s.data.foldr (fun c acc => encChar c ++ acc) []
  induction s.data with
  | nil => simp
  | cons c t ih =>
    simp only [List.foldr_cons, List.mem_append]
    rintro (h | h)
    · exact encChar_no_qmark c h
    · exact ih h

/-- A text-query URL never has the coordinate form: `?` would have been
percent-escaped by `encodeURIComponent`. -/
theorem isCoordUrl_fallback (q : String) :
    isCoordUrl (mapsSearchBase ++ encodeURIComponent q) = false := by
  rw [Bool.eq_false_iff]
  intro htrue
  unfold isCoordUrl at htrue
  have hpre := List.isPrefixOf_iff_prefix.mp htrue
  have hpre2 : mapsSearchBase.data ++ coordUrlMarker.data <+:
      mapsSearchBase.data ++ (encodeURIComponent q).data := hpre
  have h2 : coordUrlMarker.data <+: (encodeURIComponent q).data :=
    (List.prefix_append_right_inj mapsSearchBase.data).mp hpre2
  rcases h2 with ⟨t, ht⟩
  have hq : '?' ∈ (encodeURIComponent q).data := by
    rw [← ht]
    exact List.mem_append.mpr (Or.inl (by decide))
  exact encodeURIComponent_no_qmark q hq

/-- A URL of the coordinate form is recognised as such. -/
theorem isCoordUrl_coord (x y z : String) :
    isCoordUrl (mapsSearchBase ++ coordUrlMarker ++ x ++ y ++ z) = true := by
  unfold isCoordUrl
  apply List.isPrefixOf_iff_prefix.mpr
  show mapsSearchBase.data ++ coordUrlMarker.data <+:
    ((mapsSearchBase.data ++ coordUrlMarker.data) ++ x.data) ++ y.data ++ z.data
  exact ((List.prefix_append _ _).trans (List.prefix_append _ _)).trans (List.prefix_append _ _)

theorem truthy_ne_undef {v : JSValue} (h : truthy v = true) : v ≠ .undef := by
  cases v <;> simp_all [truthy]

/-- A coordinate that is present, parses to a non-NaN value and is non-zero
after scaling is necessarily a truthy field value. -/
theorem validCoord_truthy (v : JSValue) (hu : v ≠ .undef)
    (hn : ((parseFloatOfValue v).divPos 100000).isNaN = false)
    (hz : (parseFloatOfValue v).divPos 100000 ≠ .fin 0) :
    truthy v = true := by
  cases v with
  | num q =>
    simp only [truthy, decide_eq_true_eq]
    intro hq
    subst hq
    exact hz (by norm_num [parseFloatOfValue, JSNum.divPos])
  | str s =>
    simp only [truthy, decide_eq_true_eq]
    intro hs
    subst hs
    simp [parseFloatOfValue, parseFloatChars, parseFloatBody, JSNum.divPos, JSNum.isNaN] at hn
  | undef => exact absurd rfl hu
/-- C7: the map-link resolver returns a coordinate URL exactly under the
spec's condition (both coordinates present, parsing to valid non-NaN
numbers, non-zero after division by 10^5), and otherwise the
percent-encoded text-query URL; it is total by construction. -/
theorem generateGoogleMapsUrl_coord_iff (station : Station) :
    isCoordUrl (generateGoogleMapsUrl station) = specCoordCondition station ∧
    (specCoordCondition station = false →
      generateGoogleMapsUrl station = mapsSearchBase ++ encodeURIComponent (fallbackQuery station)) := by
  unfold generateGoogleMapsUrl
  split
  next h1 =>
    split
    next h2 =>
      have hspec : specCoordCondition station = true := by
        simp only [Bool.and_eq_true] at h1
        simp only [Bool.and_eq_true, Bool.not_eq_true', decide_eq_true_eq] at h2
        simp only [specCoordCondition, Bool.and_eq_true, Bool.not_eq_true', decide_eq_true_eq]
        exact ⟨⟨⟨⟨⟨truthy_ne_undef h1.1, truthy_ne_undef h1.2⟩, h2.1.1.1⟩, h2.1.1.2⟩, h2.1.2⟩, h2.2⟩
      constructor
      · rw [hspec]
        exact isCoordUrl_coord _ _ _
      · intro hfalse
        rw [hspec] at hfalse
        cases hfalse
    next h2 =>
      have hspec : specCoordCondition station = false := by
        rw [Bool.eq_false_iff]
        intro htrue
        simp only [specCoordCondition, Bool.and_eq_true, Bool.not_eq_true', decide_eq_true_eq] at htrue
        exact h2 (by
          simp only [Bool.and_eq_true, Bool.not_eq_true', decide_eq_true_eq]
          exact ⟨⟨⟨htrue.1.1.1.2, htrue.1.1.2⟩, htrue.1.2⟩, htrue.2⟩)
      exact ⟨by rw [hspec]; exact isCoordUrl_fallback _, fun _ => rfl⟩
  next h1 =>
    have hspec : specCoordCondition station = false := by
      rw [Bool.eq_false_iff]
      intro htrue
      simp only [specCoordCondition, Bool.and_eq_true, Bool.not_eq_true', decide_eq_true_eq] at htrue
      apply h1
      simp only [Bool.and_eq_true]
      refine ⟨validCoord_truthy station.latitude ?_ ?_ ?_, validCoord_truthy station.longitude ?_ ?_ ?_⟩
      · exact htrue.1.1.1.1.1
      · exact htrue.1.1.1.2
      · exact htrue.1.2
      · exact htrue.1.1.1.1.2
      · exact htrue.1.1.2
      · exact htrue.2
    exact ⟨by rw [hspec]; exact isCoordUrl_fallback _, fun _ => rfl⟩

/-- Under the ascending comparator order, a no-price (infinite-average)
station can never be obliged to precede a finite-average one. -/
theorem ascOrder_not_inf_before_fin {a b : Station}
    (h : jsCmpLe cmpPrixCroissant a b) :
    ¬(getPrixMoyen a = .inf ∧ (getPrixMoyen b).isFin = true) := by
  rintro ⟨ha, hb⟩
  unfold jsCmpLe cmpPrixCroissant at h
  rw [ha] at h
  cases hp : getPrixMoyen b <;> rw [hp] at h hb <;>
    simp_all [JSNum.sub, JSNum.add, JSNum.neg, JSNum.isPos, JSNum.isFin]

/-- Under the descending comparator order, a finite-average station can
never be obliged to precede a no-price (infinite-average) one. -/
theorem descOrder_not_fin_before_inf {a b : Station}
    (h : jsCmpLe cmpPrixDecroissant a b) :
    ¬((getPrixMoyen a).isFin = true ∧ getPrixMoyen b = .inf) := by
  rintro ⟨ha, hb⟩
  unfold jsCmpLe cmpPrixDecroissant at h
  rw [hb] at h
  cases hp : getPrixMoyen a <;> rw [hp] at h ha <;>
    simp_all [JSNum.sub, JSNum.add, JSNum.neg, JSNum.isPos, JSNum.isFin]

/-- C1 (amended): `getPrixMoyen` of an empty price list is `Infinity`;
under `prix-croissant` no-price stations sort after every finite-average
station, but under `prix-decroissant` they sort before every
finite-average station (the comparator `P(b) - P(a)` treats `Infinity` as
the largest value, hence first in descending order).  The hypothesis
excludes NaN averages, for which the comparator is inconsistent and the
engine's order unspecified. -/
theorem noPriceStations_sort_extremes (l : List Station)
    (hnn : ∀ s ∈ l, getPrixMoyen s ≠ .nan) :
    (∀ s : Station, s.prix = [] → getPrixMoyen s = .inf) ∧
    (trierStations l "prix-croissant").Pairwise
      (fun a b => ¬(getPrixMoyen a = .inf ∧ (getPrixMoyen b).isFin = true)) ∧
    (trierStations l "prix-decroissant").Pairwise
      (fun a b => ¬((getPrixMoyen a).isFin = true ∧ getPrixMoyen b = .inf)) := by
  refine ⟨fun s hs => by simp [getPrixMoyen, hs], ?_, ?_⟩
  · have heq : trierStations l "prix-croissant" = jsSortBy cmpPrixCroissant l := rfl
    rw [heq]
    refine List.Pairwise.imp (fun hab => ascOrder_not_inf_before_fin hab) ?_
    refine pairwise_insertionSort _ l ?_ ?_
    · intro a _ b _
      exact jsSub_isPos_total (getPrixMoyen a) (getPrixMoyen b)
    · intro a _ b hb c _ h1 h2
      exact jsSub_isPos_trans (hnn b hb) h1 h2
  · have heq : trierStations l "prix-decroissant" = jsSortBy cmpPrixDecroissant l := rfl
    rw [heq]
    refine List.Pairwise.imp (fun hab => descOrder_not_fin_before_inf hab) ?_
    refine pairwise_insertionSort _ l ?_ ?_
    · intro a _ b _
      exact jsSub_isPos_total (getPrixMoyen b) (getPrixMoyen a)
    · intro a _ b hb c _ h1 h2
      exact jsSub_isPos_trans (hnn b hb) h2 h1

/-- A concrete station with one finite price, used by several witnesses. -/
def stEssence : Station :=
  { marque := some "TotalEnergies", adresse := some "1 rue de la Paix", cp := some "75001",
    ville := some "Paris", type := some "Autoroute", automate_24h := true,
    horaires := some "Ouvert 24/24", latitude := .num 4885000, longitude := .num 235000,
    prix := [{ nom := "SP95", valeur := .str "1.85", maj := "15/01/2025 à 08:00" }] }

/-- A concrete station with an empty price list. -/
def stSansPrix : Station :=
  { marque := none, adresse := none, cp := none, ville := none, type := some "Route",
    automate_24h := false, horaires := none, latitude := .undef, longitude := .undef,
    prix := [] }

/-- Witness for `noPriceStations_sort_extremes` at a concrete two-station
collection. -/
theorem noPriceStations_sort_extremes_witness :
    (∀ s ∈ [stEssence, stSansPrix], getPrixMoyen s ≠ JSNum.nan) ∧
    ((∀ s : Station, s.prix = [] → getPrixMoyen s = .inf) ∧
     (trierStations [stEssence, stSansPrix] "prix-croissant").Pairwise
       (fun a b => ¬(getPrixMoyen a = .inf ∧ (getPrixMoyen b).isFin = true)) ∧
     (trierStations [stEssence, stSansPrix] "prix-decroissant").Pairwise
       (fun a b => ¬((getPrixMoyen a).isFin = true ∧ getPrixMoyen b = .inf))) := by
  have hnn : ∀ s ∈ [stEssence, stSansPrix], getPrixMoyen s ≠ JSNum.nan := by
    intro s hs
    rcases List.mem_cons.mp hs with rfl | hs2
    · decide
    · rcases List.mem_singleton.mp hs2 with rfl
      decide
  exact ⟨hnn, noPriceStations_sort_extremes [stEssence, stSansPrix] hnn⟩

set_option maxRecDepth 4000 in
/-- C1 counterexample: under `prix-decroissant` the no-price station is
sorted FIRST, before the finite-average station, contradicting "no-price
stations are placed last under both `prix-*` sort modes". -/
theorem noPriceStation_first_under_prixDecroissant :
    trierStations [stEssence, stSansPrix] "prix-decroissant" = [stSansPrix, stEssence] ∧
    stSansPrix.prix = [] ∧ (getPrixMoyen stEssence).isFin = true := by
  decide

/-- C2 (amended): the empty sort key behaves as `date-maj` (shared
`switch` case, and the `|| 'date-maj'` default in `appliquerFiltres`),
but a non-empty key outside the enumeration matches no `switch` case and
leaves the collection in its incoming order rather than sorting it by the
`date-maj` comparator. -/
theorem unrecognizedSortKey_behavior (l : List Station) (k : String)
    (hk : k ∉ ["date-maj", "", "prix-croissant", "prix-decroissant", "ville-az", "marque-az"]) :
    trierStations l k = l ∧
    trierStations l "" = trierStations l "date-maj" ∧
    (∀ fs : FilterSpec, appliquerFiltresPure l fs "" = appliquerFiltresPure l fs "date-maj") := by
  simp only [List.mem_cons, List.not_mem_nil, or_false, not_or] at hk
  refine ⟨?_, rfl, fun fs => rfl⟩
  unfold trierStations
  rw [if_neg (not_or.mpr ⟨hk.1, hk.2.1⟩), if_neg hk.2.2.1, if_neg hk.2.2.2.1,
    if_neg hk.2.2.2.2.1, if_neg hk.2.2.2.2.2]

/-- Witness for `unrecognizedSortKey_behavior` at a concrete key and
collection. -/
theorem unrecognizedSortKey_behavior_witness :
    ("tri-bidon" ∉ ["date-maj", "", "prix-croissant", "prix-decroissant", "ville-az", "marque-az"]) ∧
    (trierStations [stEssence] "tri-bidon" = [stEssence] ∧
     trierStations [stEssence] "" = trierStations [stEssence] "date-maj" ∧
     (∀ fs : FilterSpec,
       appliquerFiltresPure [stEssence] fs "" = appliquerFiltresPure [stEssence] fs "date-maj")) :=
  ⟨by decide, unrecognizedSortKey_behavior [stEssence] "tri-bidon" (by decide)⟩


/-- C2 counterexample: the unrecognized key `"tri-bidon"` leaves the
collection in its incoming order, which differs from the `date-maj`
ordering of the same collection. -/
theorem unrecognizedSortKey_not_dateMaj :
    trierStations [stSansPrix, stEssence] "tri-bidon" = [stSansPrix, stEssence] ∧
    trierStations [stSansPrix, stEssence] "date-maj" = [stEssence, stSansPrix] := by
  constructor
  · unfold trierStations
    rw [if_neg (by decide), if_neg (by decide), if_neg (by decide), if_neg (by decide),
      if_neg (by decide)]
  · have hA : getLatestUpdateTimestamp stEssence = 1736928000000 := by decide
    have hB : getLatestUpdateTimestamp stSansPrix = 0 := rfl
    have hpos : (cmpDateMaj stSansPrix stEssence).isPos = true := by
      unfold cmpDateMaj
      rw [hA, hB]
      simp only [JSNum.isPos, decide_eq_true_eq]
      push_cast
      norm_num
    show jsSortBy cmpDateMaj [stSansPrix, stEssence] = [stEssence, stSansPrix]
    unfold jsSortBy
    rw [show List.insertionSort (jsCmpLe cmpDateMaj) [stSansPrix, stEssence] =
      List.orderedInsert (jsCmpLe cmpDateMaj) stSansPrix [stEssence] from rfl]
    rw [List.orderedInsert, if_neg (by unfold jsCmpLe; rw [hpos]; simp)]
    rfl

theorem add_fin_isFin {x y : JSNum} (hx : x.isFin = true) (hy : y.isFin = true) :
    (x.add y).isFin = true := by
  cases x <;> cases y <;> simp_all [JSNum.add, JSNum.isFin]

theorem sumFold_isFin (l : List PriceEntry) (acc : JSNum) (hacc : acc.isFin = true)
    (h : ∀ p ∈ l, (coerceVal p.valeur).isFin = true) :
    (l.foldl (fun (sum : JSNum) prix => sum.add (coerceVal prix.valeur)) acc).isFin = true := by
  induction l generalizing acc with
  | nil => exact hacc
  | cons p t ih =>
    rw [List.foldl_cons]
    exact ih (acc.add (coerceVal p.valeur))
      (add_fin_isFin hacc (h p (List.mem_cons_self p t)))
      (fun q hq => h q (List.mem_cons_of_mem p hq))

theorem divNat_isFin {x : JSNum} (hx : x.isFin = true) (n : Nat) (hn : 0 < n) :
    (x.divNat n).isFin = true := by
  cases x <;> cases n <;> simp_all [JSNum.divNat, JSNum.isFin]

/-- C3 (amended): a falsy price value (absent, empty string, or 0) is
coerced to 0 and still counted in the denominator, and the average is
finite whenever every entry coerces to a finite number; but an entry whose
value is a truthy string with no parsable numeric prefix yields NaN via
`parseFloat`, not 0, making the whole average NaN (see the
counterexample). -/
theorem averagePrice_finite_of_parsable (station : Station) (hne : station.prix ≠ [])
    (h : ∀ p ∈ station.prix, (coerceVal p.valeur).isFin = true) :
    (getPrixMoyen station).isFin = true ∧
    (∀ v : JSValue, truthy v = false → coerceVal v = .fin 0) := by
  constructor
  · unfold getPrixMoyen
    rw [if_neg (by simp [hne])]
    exact divNat_isFin (sumFold_isFin station.prix (.fin 0) rfl h) station.prix.length
      (List.length_pos.mpr hne)
  · intro v hv
    unfold coerceVal
    rw [if_neg (by simp [hv])]
    rfl

/-- Witness for `averagePrice_finite_of_parsable` at a concrete station. -/
theorem averagePrice_finite_of_parsable_witness :
    (stEssence.prix ≠ [] ∧ ∀ p ∈ stEssence.prix, (coerceVal p.valeur).isFin = true) ∧
    ((getPrixMoyen stEssence).isFin = true ∧
     (∀ v : JSValue, truthy v = false → coerceVal v = .fin 0)) := by
  have h1 : stEssence.prix ≠ [] := by decide
  have h2 : ∀ p ∈ stEssence.prix, (coerceVal p.valeur).isFin = true := by
    intro p hp
    rcases List.mem_singleton.mp hp with rfl
    decide
  exact ⟨⟨h1, h2⟩, averagePrice_finite_of_parsable stEssence h1 h2⟩

/-- A station whose single price entry has the unparsable value `"abc"`. -/
def stValeurInvalide : Station :=
  { marque := some "Esso", adresse := some "2 avenue du Port", cp := some "13001",
    ville := some "Marseille", type := some "Route", automate_24h := false,
    horaires := some "6h-22h", latitude := .undef, longitude := .undef,
    prix := [{ nom := "Gazole", valeur := .str "abc", maj := "Non renseigné" }] }

/-- C3 counterexample: `parseFloat("abc" || 0)` is `parseFloat("abc")`,
i.e. NaN — the truthy unparsable string is not coerced to 0, and the
average is NaN rather than a finite number. -/
theorem averagePrice_nan_on_unparsable :
    getPrixMoyen stValeurInvalide = .nan ∧
    coerceVal (.str "abc") = .nan ∧ (getPrixMoyen stValeurInvalide).isFin = false := by
  decide

theorem filter_comm' {α : Type} (p q : α → Bool) (l : List α) :
    (l.filter p).filter q = (l.filter q).filter p := by
  induction l with
  | nil => rfl
  | cons a t ih => by_cases hp : p a <;> by_cases hq : q a <;> simp [List.filter_cons, hp, hq, ih]

theorem filtreType_filtreHoraires_comm (t h : String) (l : List Station) :
    filtreType t (filtreHoraires h l) = filtreHoraires h (filtreType t l) := by
  unfold filtreType filtreHoraires
  split_ifs <;> first | rfl | apply filter_comm'

theorem filtreType_filtreFuels_comm (t : String) (f : List String) (l : List Station) :
    filtreType t (filtreFuels f l) = filtreFuels f (filtreType t l) := by
  unfold filtreType filtreFuels
  split_ifs <;> first | rfl | apply filter_comm'

theorem filtreHoraires_filtreFuels_comm (h : String) (f : List String) (l : List Station) :
    filtreHoraires h (filtreFuels f l) = filtreFuels f (filtreHoraires h l) := by
  unfold filtreHoraires filtreFuels
  split_ifs <;> first | rfl | apply filter_comm'

/-- C5: the three filter steps commute — every application order produces
the set computed by the source order (fuels ∘ horaires ∘ type) — and the
empty `FilterSpec` keeps every station. -/
theorem filters_commute_and_empty_identity (l : List Station) (fs : FilterSpec) :
    (filtreFuels fs.fuels (filtreType fs.typeStation (filtreHoraires fs.horaires l)) =
       filtreFuels fs.fuels (filtreHoraires fs.horaires (filtreType fs.typeStation l)) ∧
     filtreHoraires fs.horaires (filtreFuels fs.fuels (filtreType fs.typeStation l)) =
       filtreFuels fs.fuels (filtreHoraires fs.horaires (filtreType fs.typeStation l)) ∧
     filtreHoraires fs.horaires (filtreType fs.typeStation (filtreFuels fs.fuels l)) =
       filtreFuels fs.fuels (filtreHoraires fs.horaires (filtreType fs.typeStation l)) ∧
     filtreType fs.typeStation (filtreFuels fs.fuels (filtreHoraires fs.horaires l)) =
       filtreFuels fs.fuels (filtreHoraires fs.horaires (filtreType fs.typeStation l)) ∧
     filtreType fs.typeStation (filtreHoraires fs.horaires (filtreFuels fs.fuels l)) =
       filtreFuels fs.fuels (filtreHoraires fs.horaires (filtreType fs.typeStation l))) ∧
    filtreFuels [] (filtreHoraires "" (filtreType "" l)) = l := by
  refine ⟨⟨?_, ?_, ?_, ?_, ?_⟩, rfl⟩
  · rw [filtreType_filtreHoraires_comm]
  · rw [filtreHoraires_filtreFuels_comm]
  · rw [filtreType_filtreFuels_comm, filtreHoraires_filtreFuels_comm]
  · rw [filtreType_filtreFuels_comm, filtreType_filtreHoraires_comm]
  · rw [filtreHoraires_filtreFuels_comm, filtreType_filtreFuels_comm,
      filtreType_filtreHoraires_comm]

/-- C6: while `isLoading` is set, a search trigger changes no state and
issues no request; a request is only ever issued from a non-loading state
and immediately sets the guard; settling (success or failure) releases
the guard — hence at most one request is in flight. -/
theorem search_guard_at_most_one_inflight (st : AppState) (v : String)
    (h : st.isLoading = true) :
    (triggerSearch v st).1 = st ∧
    (∀ u : String, Effect.fetchRequest u ∉ (triggerSearch v st).2) ∧
    (∀ (res : FetchResult) (fs : FilterSpec) (tri : String) (st2 : AppState),
      (settleSearch res fs tri st2).isLoading = false) ∧
    (∀ (st3 : AppState) (v3 u : String), Effect.fetchRequest u ∈ (triggerSearch v3 st3).2 →
      st3.isLoading = false ∧ (triggerSearch v3 st3).1.isLoading = true) := by
  refine ⟨?_, ?_, ?_, ?_⟩
  · simp only [triggerSearch]
    split_ifs <;> simp_all
  · intro u
    simp only [triggerSearch]
    split_ifs <;> simp_all
  · intro res fs tri st2
    cases res <;> rfl
  · intro st3 v3 u hm
    simp only [triggerSearch] at hm ⊢
    split_ifs at hm ⊢ with h1 h2
    · simp at hm
    · simp at hm
    · exact ⟨by simpa using h2, rfl⟩

/-- Witness for `search_guard_at_most_one_inflight` in a concrete loading
state. -/
theorem search_guard_witness :
    ({ initialState with isLoading := true } : AppState).isLoading = true ∧
    ((triggerSearch "Paris" { initialState with isLoading := true }).1 =
       { initialState with isLoading := true } ∧
     (∀ u : String,
       Effect.fetchRequest u ∉ (triggerSearch "Paris" { initialState with isLoading := true }).2) ∧
     (∀ (res : FetchResult) (fs : FilterSpec) (tri : String) (st2 : AppState),
       (settleSearch res fs tri st2).isLoading = false) ∧
     (∀ (st3 : AppState) (v3 u : String), Effect.fetchRequest u ∈ (triggerSearch v3 st3).2 →
       st3.isLoading = false ∧ (triggerSearch v3 st3).1.isLoading = true)) :=
  ⟨rfl, search_guard_at_most_one_inflight { initialState with isLoading := true } "Paris" rfl⟩

/-- C9: a search that fails leaves both the canonical collection and the
filtered collection exactly as they were before the search was
triggered (the trigger itself touches neither, and the failure path
assigns neither). -/
theorem failedSearch_preserves_collections (st : AppState) (v msg : String)
    (fs : FilterSpec) (tri : String) :
    (settleSearch (.failure msg) fs tri (triggerSearch v st).1).stationsData =
      st.stationsData ∧
    (settleSearch (.failure msg) fs tri (triggerSearch v st).1).filteredStations =
      st.filteredStations := by
  simp only [triggerSearch, settleSearch]
  split_ifs <;> exact ⟨rfl, rfl⟩

/-- The controller state right after a search was triggered from a state
holding a previous result. -/
def loadingStateW : AppState :=
  { stationsData := [stValeurInvalide], filteredStations := [stValeurInvalide],
    isLoading := true, display := .loading }

/-- C4 (code bug): on a success response with zero stations the canonical
collection is replaced, but `appliquerFiltres` early-returns when the
canonical set is empty, so `afficherResultats` is never reached: the
results area still shows the loading spinner, and the dedicated
"no stations found" view (third conjunct) is never exposed. -/
theorem successEmpty_leaves_loading_display :
    (settleSearch (.success []) ⟨"", "", []⟩ "date-maj" loadingStateW).stationsData = [] ∧
    (settleSearch (.success []) ⟨"", "", []⟩ "date-maj" loadingStateW).display =
      .loading ∧
    afficherResultats [] = .noResults :=
  ⟨rfl, rfl, rfl⟩

theorem matchTimestamp_some_ne {s : String} {r : Nat × Nat × Nat × Nat × Nat}
    (hm : matchTimestamp s = some r) : ¬(s = "" ∨ s = "Non renseigné") := by
  rintro (rfl | rfl)
  · rw [show matchTimestamp "" = none from rfl] at hm
    cases hm
  · rw [show matchTimestamp "Non renseigné" = none from by decide] at hm
    cases hm

/-- When the regex matches, `getDataAge` reduces to the three-way
freshness test on the parsed instant. -/
theorem getDataAge_eq_of_match (s : String) (now : Int) (d m y h mi : Nat)
    (hm : matchTimestamp s = some (d, m, y, h, mi)) :
    getDataAge s now =
      (if ((now : ℚ) - (jsDateMs (y : Int) ((m : Int) - 1) (d : Int) (h : Int) (mi : Int) : ℚ))
            / 86400000 ≤ 7 then .fresh
       else if ((now : ℚ) - (jsDateMs (y : Int) ((m : Int) - 1) (d : Int) (h : Int) (mi : Int) : ℚ))
            / 86400000 ≤ 30 then .old
       else .stale) := by
  unfold getDataAge
  rw [if_neg (matchTimestamp_some_ne hm), hm]

theorem diffDays_le7_iff (now t : Int) :
    ((now : ℚ) - (t : ℚ)) / 86400000 ≤ 7 ↔ now - t ≤ 7 * 86400000 := by
  rw [div_le_iff (by norm_num : (0:ℚ) < 86400000)]
  have h1 : ((now : ℚ) - (t : ℚ)) = ((now - t : Int) : ℚ) := by push_cast; ring
  have h2 : (7 : ℚ) * 86400000 = ((7 * 86400000 : Int) : ℚ) := by norm_num
  rw [h1, h2]
  exact Int.cast_le

theorem diffDays_le30_iff (now t : Int) :
    ((now : ℚ) - (t : ℚ)) / 86400000 ≤ 30 ↔ now - t ≤ 30 * 86400000 := by
  rw [div_le_iff (by norm_num : (0:ℚ) < 86400000)]
  have h1 : ((now : ℚ) - (t : ℚ)) = ((now - t : Int) : ℚ) := by push_cast; ring
  have h2 : (30 : ℚ) * 86400000 = ((30 * 86400000 : Int) : ℚ) := by norm_num
  rw [h1, h2]
  exact Int.cast_le

/-- C8: `getDataAge` returns `stale` for the empty string, the sentinel
and any non-matching string; on a match it returns `fresh` when the age
is at most 7 days (7·86400000 ms), `old` when at most 30 days, and
`stale` beyond; it is total by construction (the `try`/`catch` is dead). -/
theorem getDataAge_classification (s : String) (now : Int) :
    ((s = "" ∨ s = "Non renseigné" ∨ matchTimestamp s = none) → getDataAge s now = .stale) ∧
    (∀ d m y h mi : Nat, matchTimestamp s = some (d, m, y, h, mi) →
      (now - jsDateMs (y : Int) ((m : Int) - 1) (d : Int) (h : Int) (mi : Int) ≤ 7 * 86400000 →
        getDataAge s now = .fresh) ∧
      (7 * 86400000 < now - jsDateMs (y : Int) ((m : Int) - 1) (d : Int) (h : Int) (mi : Int) →
        now - jsDateMs (y : Int) ((m : Int) - 1) (d : Int) (h : Int) (mi : Int) ≤ 30 * 86400000 →
        getDataAge s now = .old) ∧
      (30 * 86400000 < now - jsDateMs (y : Int) ((m : Int) - 1) (d : Int) (h : Int) (mi : Int) →
        getDataAge s now = .stale)) := by
  constructor
  · intro hcase
    unfold getDataAge
    by_cases hss : s = "" ∨ s = "Non renseigné"
    · rw [if_pos hss]
    · rw [if_neg hss]
      rcases hcase with hc | hc | hc
      · exact absurd (Or.inl hc) hss
      · exact absurd (Or.inr hc) hss
      · rw [hc]
  · intro d m y h mi hm
    rw [getDataAge_eq_of_match s now d m y h mi hm]
    refine ⟨?_, ?_, ?_⟩
    · intro hle
      rw [if_pos ((diffDays_le7_iff now _).mpr hle)]
    · intro hgt hle
      rw [if_neg (fun hq => absurd ((diffDays_le7_iff now _).mp hq) (by omega)),
        if_pos ((diffDays_le30_iff now _).mpr hle)]
    · intro hgt
      rw [if_neg (fun hq => absurd ((diffDays_le7_iff now _).mp hq) (by omega)),
        if_neg (fun hq => absurd ((diffDays_le30_iff now _).mp hq) (by omega))]

/-- Witness for `getDataAge_classification` at a concrete timestamp and
instant (about 20 hours after the update). -/
theorem getDataAge_classification_witness :
    matchTimestamp "15/01/2025 à 08:00" = some (15, 1, 2025, 8, 0) ∧
    (1737000000000 : Int) - jsDateMs ((2025 : Nat) : Int) (((1 : Nat) : Int) - 1)
      ((15 : Nat) : Int) ((8 : Nat) : Int) ((0 : Nat) : Int) ≤ 7 * 86400000 ∧
    getDataAge "15/01/2025 à 08:00" 1737000000000 = .fresh :=
  ⟨by decide, by decide,
    ((getDataAge_classification "15/01/2025 à 08:00" 1737000000000).2 15 1 2025 8 0
      (by decide)).1 (by decide)⟩

/-- C10: a well-formed timestamp denoting an instant strictly later than
`now` has negative age, hence at most 7 days, hence classifies `fresh`. -/
theorem futureTimestamp_fresh (s : String) (now : Int) (d m y h mi : Nat)
    (hm : matchTimestamp s = some (d, m, y, h, mi))
    (hfut : now < jsDateMs (y : Int) ((m : Int) - 1) (d : Int) (h : Int) (mi : Int)) :
    getDataAge s now = .fresh := by
  rw [getDataAge_eq_of_match s now d m y h mi hm]
  rw [if_pos ((diffDays_le7_iff now _).mpr (by omega))]

/-- Witness for `futureTimestamp_fresh`: a 2030 timestamp viewed from the
epoch. -/
theorem futureTimestamp_fresh_witness :
    matchTimestamp "01/01/2030 à 00:00" = some (1, 1, 2030, 0, 0) ∧
    (0 : Int) < jsDateMs ((2030 : Nat) : Int) (((1 : Nat) : Int) - 1)
      ((1 : Nat) : Int) ((0 : Nat) : Int) ((0 : Nat) : Int) ∧
    getDataAge "01/01/2030 à 00:00" 0 = .fresh :=
  ⟨by decide, by decide,
    futureTimestamp_fresh "01/01/2030 à 00:00" 0 1 1 2030 0 0 (by decide) (by decide)⟩
